import Mathlib

/-!
Shallow embedding of the Arch-I-Tect backend (Python) used to check the
repository's natural-language specification.

Text is modelled as `List Char`; Python `str` operations are translated
character by character.  The regular expressions of the source are small
enough that their backtracking behaviour is deterministic (maximal-munch
word runs followed by a non-word delimiter, lazy captures realised as the
earliest following delimiter), and they are embedded as explicit scanners.
External effects (file system, network, PIL pixel data) are modelled by
explicit records and oracles, as noted at each definition.
-/

/-- Text is modelled as a list of characters. -/
abbrev Str := List Char

/-- The backtick character, written by code. -/
def btick : Char := '\x60'

/-- Three backticks: the markdown fence delimiter used throughout the code. -/
def ticks : Str := [btick, btick, btick]

/-- The newline character. -/
def nlChar : Char := '\n'

/-- The opening curly brace character. -/
def openBrace : Char := '\x7b'

/-- The closing curly brace character. -/
def closeBrace : Char := '\x7d'

/-- The double-quote character. -/
def quoteChar : Char := '\x22'

/-- The backslash character. -/
def backslashChar : Char := '\x5c'

/-- The underscore character. -/
def underscoreChar : Char := '_'

/-- Python whitespace, as stripped by `str.strip()` and matched by the regex
class of whitespace characters: space, tab, newline, carriage return,
vertical tab and form feed. -/
def isSpaceChar (c : Char) : Bool :=
  c = ' ' || c = '\t' || c = '\n' || c = '\r' || c = '\x0b' || c = '\x0c'

/-- The regex word-character class: ASCII letters, digits and underscore. -/
def isWordChar (c : Char) : Bool :=
  c.isAlphanum || c = underscoreChar

/-- Python `str.strip()`: remove leading and trailing whitespace. -/
def pyStrip (s : Str) : Str :=
  ((s.dropWhile isSpaceChar).reverse.dropWhile isSpaceChar).reverse

/-- Python `str.lower()` (ASCII). -/
def lowerStr (s : Str) : Str := s.map Char.toLower

/-- Python `str.startswith`: `pre` is a character-wise prefix of the text. -/
def startsWithL : Str → Str → Bool
  | [], _ => true
  | _ :: _, [] => false
  | p :: ps, c :: cs => p == c && startsWithL ps cs

/-- Find the first occurrence of `needle` as a contiguous substring,
returning the text before it and the text after it.  This realises both the
Python `in` operator and the lazy capture `.*?` followed by a literal
delimiter (the earliest occurrence of the delimiter is exactly the
shortest lazy capture). -/
def splitFirstSub (needle : Str) : Str → Option (Str × Str)
  | [] => if needle = [] then some ([], []) else none
  | c :: t =>
    if startsWithL needle (c :: t) then some ([], List.drop needle.length (c :: t))
    else (splitFirstSub needle t).map (fun p => (c :: p.1, p.2))

/-- Python `needle in s` for strings. -/
def containsSub (needle s : Str) : Bool := (splitFirstSub needle s).isSome

/-- Count non-overlapping occurrences of a substring, Python `str.count`. -/
def countSubAux (needle : Str) : Nat → Str → Nat
  | 0, _ => 0
  | fuel + 1, s =>
    match splitFirstSub needle s with
    | none => 0
    | some (_, rest) => 1 + countSubAux needle fuel rest

/-- Python `str.count(needle)` for a non-empty needle. -/
def countSub (needle s : Str) : Nat := countSubAux needle (s.length + 1) s

/-- One run of `re.findall`: try the matcher at each position from the left;
on a match, emit the captured group and resume right after the match
(matches are non-overlapping), otherwise advance one character. -/
def findallAux (m : Str → Option (Str × Str)) : Nat → Str → List Str
  | 0, _ => []
  | fuel + 1, s =>
    match m s with
    | some (cap, rest) => cap :: findallAux m fuel rest
    | none =>
      match s with
      | [] => []
      | _ :: t => findallAux m fuel t

/-- Python `re.findall` for a matcher that always consumes at least one
character on success. -/
def findall (m : Str → Option (Str × Str)) (s : Str) : List Str :=
  findallAux m (s.length + 1) s

/-- Match one fenced code block at the current position: the literal
opening fence, a language part consumed by `eat`, then a lazy capture up to
the closing fence.  Returns the capture and the text after the match. -/
def matchFenceWith (eat : Str → Option Str) (s : Str) : Option (Str × Str) :=
  if startsWithL ticks s then
    match eat (s.drop 3) with
    | some body =>
      match splitFirstSub ticks body with
      | some (cap, rest) => some (cap, rest)
      | none => none
    | none => none
  else none

/-- Consume an optional language tag drawn from a fixed list, followed by a
newline (the alternatives are mutually exclusive on any given text, so the
alternation order of the source regex is immaterial). -/
def eatLangOpt : List Str → Str → Option Str
  | [], rest => if startsWithL [nlChar] rest then some (rest.drop 1) else none
  | l :: ls, rest =>
    if startsWithL (l ++ [nlChar]) rest then some (rest.drop (l.length + 1))
    else eatLangOpt ls rest

/-- Consume an optional run of word characters followed by a newline (the
language part of the pattern used by `extract_code_block` with no language
argument: word characters cannot include the newline, so the greedy run is
deterministic). -/
def eatWordNl (rest : Str) : Option Str :=
  let run := rest.takeWhile isWordChar
  if startsWithL [nlChar] (rest.drop run.length) then some (rest.drop (run.length + 1))
  else none

/-- Consume an exact language tag followed by a newline. -/
def eatExactLang (lang : Str) (rest : Str) : Option Str :=
  if startsWithL (lang ++ [nlChar]) rest then some (rest.drop (lang.length + 1)) else none

/-- The language hints recognised by `LLMInterface._parse_architecture_response`. -/
def iacLangs : List Str :=
  ["hcl".toList, "terraform".toList, "yaml".toList, "json".toList]

/-- The first code-block pattern of `_parse_architecture_response`:
an optional IaC language hint after the fence. -/
def matchFenceIaC : Str → Option (Str × Str) := matchFenceWith (eatLangOpt iacLangs)

/-- The fallback pattern: a fence immediately followed by a newline. -/
def matchFenceBare : Str → Option (Str × Str) := matchFenceWith (eatLangOpt [])

/-- The pattern of `CodeFormatter.extract_code_block` with no language
argument: any word run as language hint, optional. -/
def matchFenceWord : Str → Option (Str × Str) := matchFenceWith eatWordNl

/-- The pattern of `CodeFormatter.extract_code_block` with a language
argument interpolated into the pattern. -/
def matchFenceLangArg (lang : Str) : Str → Option (Str × Str) :=
  matchFenceWith (eatExactLang lang)

/-- Remove every non-overlapping lazily-fenced region, the substitution
used for the explanation in `_parse_architecture_response`: find a fence,
find the next fence, drop everything between and including them, repeat. -/
def removeFencesAux : Nat → Str → Str
  | 0, s => s
  | fuel + 1, s =>
    match splitFirstSub ticks s with
    | none => s
    | some (before, rest) =>
      match splitFirstSub ticks rest with
      | none => s
      | some (_, rest2) => before ++ removeFencesAux fuel rest2

/-- The explanation substitution: remove all fenced regions. -/
def removeFences (s : Str) : Str := removeFencesAux (s.length + 1) s

/-- Case-insensitive character comparison, the IGNORECASE flag. -/
def ciEqChar (a b : Char) : Bool := a.toLower == b.toLower

/-- Prefix test, optionally case-insensitive. -/
def kwStartsWith (ci : Bool) : Str → Str → Bool
  | [], _ => true
  | _ :: _, [] => false
  | p :: ps, c :: cs => (if ci then ciEqChar p c else p == c) && kwStartsWith ci ps cs

/-- Word boundary after a match: the next character, if any, is not a word
character (every keyword of the source ends in a word character). -/
def boundaryAfter : Str → Bool
  | [] => true
  | c :: _ => !isWordChar c

/-- Word boundary before a match position: the previous character, if any,
is not a word character (every keyword of the source starts with a word
character). -/
def boundaryBefore : Option Char → Bool
  | none => true
  | some c => !isWordChar c

/-- Try each keyword alternative in order at the current position; an
alternative succeeds when its characters match and a word boundary follows,
exactly as the backtracking alternation of the source regex.  The emitted
capture is the matched slice of the input, preserving its original case. -/
def tryKeywords (ci : Bool) : List Str → Str → Option (Str × Str)
  | [], _ => none
  | k :: ks, s =>
    if kwStartsWith ci k s && boundaryAfter (s.drop k.length) then
      some (s.take k.length, s.drop k.length)
    else tryKeywords ci ks s

/-- Keyword scan with word boundaries, carrying the previous character. -/
def findKeywordsAux (ci : Bool) (kws : List Str) : Nat → Option Char → Str → List Str
  | 0, _, _ => []
  | fuel + 1, prev, s =>
    if boundaryBefore prev then
      match tryKeywords ci kws s with
      | some (m, rest) => m :: findKeywordsAux ci kws fuel m.getLast? rest
      | none =>
        match s with
        | [] => []
        | c :: t => findKeywordsAux ci kws fuel (some c) t
    else
      match s with
      | [] => []
      | c :: t => findKeywordsAux ci kws fuel (some c) t

/-- Python `re.findall` for a boundary-delimited keyword alternation. -/
def findKeywords (ci : Bool) (kws : List Str) (s : Str) : List Str :=
  findKeywordsAux ci kws (s.length + 1) none s

/-- Result of `LLMInterface._parse_architecture_response`, the dictionary
it builds. -/
structure ParsedResponse where
  code : Str
  explanation : Str
  detected_resources : List Str
  format : Str
  raw_response : Str
deriving DecidableEq

/-- The resource keyword alternation of `_parse_architecture_response`. -/
def parseResourceKws : List Str :=
  ["EC2".toList, "S3".toList, "RDS".toList, "Lambda".toList, "VPC".toList,
   "ALB".toList, "ELB".toList, "DynamoDB".toList, "SNS".toList, "SQS".toList,
   "CloudFront".toList, "Route53".toList]

/-- Shallow embedding of `LLMInterface._parse_architecture_response`.
Python `list(set(...))` iterates a hash set in unspecified order; it is
modelled by `List.dedup`, which has the same members and no duplicates. -/
def parse_architecture_response (response : Str) (output_format : Str) : ParsedResponse :=
  let matches1 := findall matchFenceIaC response
  let code_matches := if matches1 = [] then findall matchFenceBare response else matches1
  { code :=
      match code_matches with
      | m :: _ => pyStrip m
      | [] => []
    explanation := pyStrip (removeFences response)
    detected_resources := List.dedup (findKeywords true parseResourceKws response)
    format := output_format
    raw_response := response }

/-- Shallow embedding of `CodeFormatter.extract_code_block`. -/
def extract_code_block (text : Str) (language : Option Str) : Str :=
  let ms :=
    match language with
    | some lang => findall (matchFenceLangArg lang) text
    | none => findall matchFenceWord text
  match ms with
  | m :: _ => pyStrip m
  | [] =>
    match findall matchFenceBare text with
    | m :: _ => pyStrip m
    | [] => pyStrip text

/-- With no fence delimiter anywhere in the text, no fence matcher can
succeed at any position, so the scan finds nothing. -/
theorem findall_fence_nil (eat : Str → Option Str) :
    ∀ (fuel : Nat) (s : Str), splitFirstSub ticks s = none →
      findallAux (matchFenceWith eat) fuel s = [] := by
  intro fuel
  induction fuel with
  | zero => intro s _; rfl
  | succ n ih =>
    intro s h
    cases s with
    | nil => rfl
    | cons c t =>
      have hsplit : ¬ (startsWithL ticks (c :: t) = true) ∧ splitFirstSub ticks t = none := by
        by_cases hs : startsWithL ticks (c :: t) = true
        · exfalso
          simp only [splitFirstSub, hs, if_true] at h
          exact Option.noConfusion h
        · constructor
          · exact hs
          · simp only [splitFirstSub, hs, if_false] at h
            cases hrec : splitFirstSub ticks t with
            | none => rfl
            | some p => rw [hrec] at h; simp at h
      simp only [findallAux, matchFenceWith, hsplit.1, if_false]
      exact ih t hsplit.2

/-- With no fence delimiter in the text, the explanation substitution
removes nothing. -/
theorem removeFences_no_fence (s : Str) (h : splitFirstSub ticks s = none) :
    removeFences s = s := by
  unfold removeFences removeFencesAux
  rw [h]

/-- C1. For an LLM response text with no fenced code block,
`extract_code_block` falls back to the whole trimmed text, while
`_parse_architecture_response` extracts the empty string as code; the
fence-removal substitution leaves the text unchanged, so the explanation is
the trimmed input. -/
theorem fenceless_response_extraction (text fmt : Str)
    (h : containsSub ticks text = false) :
    extract_code_block text none = pyStrip text ∧
    (parse_architecture_response text fmt).code = [] ∧
    removeFences text = text ∧
    (parse_architecture_response text fmt).explanation = pyStrip text := by
  have hnone : splitFirstSub ticks text = none := by
    unfold containsSub at h
    cases hs : splitFirstSub ticks text with
    | none => rfl
    | some p => rw [hs] at h; simp at h
  have h1 : findall matchFenceWord text = [] :=
    findall_fence_nil eatWordNl (text.length + 1) text hnone
  have h2 : findall matchFenceBare text = [] :=
    findall_fence_nil (eatLangOpt []) (text.length + 1) text hnone
  have h3 : findall matchFenceIaC text = [] :=
    findall_fence_nil (eatLangOpt iacLangs) (text.length + 1) text hnone
  have h4 : removeFences text = text := removeFences_no_fence text hnone
  refine ⟨?_, ?_, h4, ?_⟩
  · unfold extract_code_block
    rw [h1, h2]
  · unfold parse_architecture_response
    rw [h3]
    simp only [if_true, h2]
  · unfold parse_architecture_response
    rw [h4]

/-- Witness for C1 at the concrete fenceless text `hello`. -/
theorem fenceless_response_extraction_witness :
    containsSub ticks "hello".toList = false ∧
    (extract_code_block "hello".toList none = pyStrip "hello".toList ∧
     (parse_architecture_response "hello".toList "terraform".toList).code = [] ∧
     removeFences "hello".toList = "hello".toList ∧
     (parse_architecture_response "hello".toList "terraform".toList).explanation
       = pyStrip "hello".toList) :=
  ⟨by decide, fenceless_response_extraction "hello".toList "terraform".toList (by decide)⟩

/-- Counterexample to C1 as stated: on the fenceless text `no fences here`
the response parser used by the pipeline returns the empty string as code,
not the full trimmed input. -/
theorem fenceless_parse_empty_code :
    containsSub ticks "no fences here".toList = false ∧
    (parse_architecture_response "no fences here".toList "terraform".toList).code = [] ∧
    pyStrip "no fences here".toList ≠ ([] : Str) := by
  refine ⟨by decide, ?_, by decide⟩
  decide

/-- Scan of `re.search` for the resource-declaration fragment: consume at
least one whitespace character. -/
def eatSpaces1 (s : Str) : Option Str :=
  let run := s.takeWhile isSpaceChar
  if run = [] then none else some (s.drop run.length)

/-- Character class of the resource-name fragment: word characters or a
hyphen. -/
def isWordDash (c : Char) : Bool := isWordChar c || c = '-'

/-- Consume a double-quoted non-empty run of word-or-hyphen characters,
returning the run and the remaining text. -/
def eatQuotedWordCap (s : Str) : Option (Str × Str) :=
  match s with
  | [] => none
  | c :: rest =>
    if c = quoteChar then
      let run := rest.takeWhile isWordDash
      if run = [] then none
      else
        match rest.drop run.length with
        | c2 :: r3 => if c2 = quoteChar then some (run, r3) else none
        | [] => none
    else none

/-- Whether the resource-declaration pattern (the literal word `resource`,
whitespace, a quoted name, whitespace, a quoted name) matches at the start
of the text. -/
def matchResourceDeclAt (s : Str) : Bool :=
  if startsWithL "resource".toList s then
    match eatSpaces1 (s.drop 8) with
    | some r1 =>
      match eatQuotedWordCap r1 with
      | some (_, r2) =>
        match eatSpaces1 r2 with
        | some r3 => (eatQuotedWordCap r3).isSome
        | none => false
      | none => false
    | none => false
  else false

/-- Python `re.search` for the resource-declaration pattern: a match at any
position. -/
def hasResourceDecl (code : Str) : Bool :=
  code.tails.any matchResourceDeclAt

/-- Decimal rendering of a number, for interpolated error messages. -/
def natToStr (n : Nat) : Str := (Nat.repr n).toList

/-- Shallow embedding of `CodeFormatter.validate_terraform_syntax`. -/
def validate_terraform_syntax (code : Str) : Bool × Option Str :=
  let open_braces := code.count openBrace
  let close_braces := code.count closeBrace
  if open_braces ≠ close_braces then
    (false, some ("Unbalanced braces: ".toList ++ natToStr open_braces ++
      " open, ".toList ++ natToStr close_braces ++ " close".toList))
  else if ¬ containsSub "resource".toList code ∧ ¬ containsSub "data".toList code ∧
      ¬ containsSub "module".toList code then
    (false, some "No resources, data sources, or modules defined".toList)
  else if containsSub "resource".toList code ∧ ¬ hasResourceDecl code then
    (false, some "Invalid resource declaration syntax".toList)
  else if (code.count quoteChar - countSub [backslashChar, quoteChar] code) % 2 ≠ 0 then
    (false, some "Unclosed quotes detected".toList)
  else (true, none)

/-- Shallow embedding of `CodeFormatter.validate_cloudformation_syntax`.
The trailing indentation scan of the source only emits a log warning and
cannot change the returned verdict, so it is omitted from the value. -/
def validate_cloudformation_syntax (code : Str) : Bool × Option Str :=
  if ¬ containsSub "AWSTemplateFormatVersion".toList code then
    (false, some "Missing required key: AWSTemplateFormatVersion".toList)
  else if ¬ containsSub "Resources".toList code then
    (false, some "Missing required key: Resources".toList)
  else if ¬ startsWithL "AWSTemplateFormatVersion:".toList (pyStrip code) then
    (false, some "Template must start with AWSTemplateFormatVersion".toList)
  else (true, none)

/-- C6. Terraform heuristic validation passes on the balanced resource
block and fails on the same input with the opening brace removed, citing
the brace imbalance. -/
theorem terraform_validation_brace_example :
    validate_terraform_syntax "resource \x22x\x22 \x22y\x22 \x7b\n a = 1\n\x7d".toList
      = (true, none) ∧
    validate_terraform_syntax "resource \x22x\x22 \x22y\x22 \n a = 1\n\x7d".toList
      = (false, some "Unbalanced braces: 0 open, 1 close".toList) := by
  constructor
  · decide
  · decide

/-- Counterexample to C5 as stated: this document contains both required
top-level keys yet validation fails, because the document does not begin
with the version key. -/
theorem cloudformation_both_keys_reject :
    containsSub "AWSTemplateFormatVersion".toList
      "Description: d\nAWSTemplateFormatVersion: 2010-09-09\nResources:".toList = true ∧
    containsSub "Resources".toList
      "Description: d\nAWSTemplateFormatVersion: 2010-09-09\nResources:".toList = true ∧
    validate_cloudformation_syntax
      "Description: d\nAWSTemplateFormatVersion: 2010-09-09\nResources:".toList
      = (false, some "Template must start with AWSTemplateFormatVersion".toList) := by
  refine ⟨by decide, by decide, by decide⟩

/-- C5 (amended). CloudFormation validation fails citing the missing key on
any document without `AWSTemplateFormatVersion`, and passes on any document
that contains both required keys and whose stripped text begins with
`AWSTemplateFormatVersion:`. -/
theorem cloudformation_validation_keys (code : Str) :
    (¬ containsSub "AWSTemplateFormatVersion".toList code →
      validate_cloudformation_syntax code
        = (false, some "Missing required key: AWSTemplateFormatVersion".toList)) ∧
    (containsSub "AWSTemplateFormatVersion".toList code →
     containsSub "Resources".toList code →
     startsWithL "AWSTemplateFormatVersion:".toList (pyStrip code) →
      validate_cloudformation_syntax code = (true, none)) := by
  constructor
  · intro h
    unfold validate_cloudformation_syntax
    rw [if_pos]
    exact h
  · intro h1 h2 h3
    unfold validate_cloudformation_syntax
    rw [if_neg, if_neg, if_neg]
    · simpa using h3
    · simpa using h2
    · simpa using h1

/-- Witness for C5 at concrete documents: one missing the version key, one
containing both keys and starting with the version key. -/
theorem cloudformation_validation_keys_witness :
    ¬ containsSub "AWSTemplateFormatVersion".toList "Resources:\n  R: 1".toList ∧
    validate_cloudformation_syntax "Resources:\n  R: 1".toList
      = (false, some "Missing required key: AWSTemplateFormatVersion".toList) ∧
    validate_cloudformation_syntax
      "AWSTemplateFormatVersion: 1\nResources:\n  R: 1".toList = (true, none) :=
  ⟨by decide,
   (cloudformation_validation_keys "Resources:\n  R: 1".toList).1 (by decide),
   (cloudformation_validation_keys
      "AWSTemplateFormatVersion: 1\nResources:\n  R: 1".toList).2
     (by decide) (by decide) (by decide)⟩

/-- The terraform keywords probed by `validate_llm_response`. -/
def terraformResponseKws : List Str :=
  ["resource".toList, "provider".toList, "variable".toList, "output".toList]

/-- The CloudFormation keywords probed by `validate_llm_response`. -/
def cloudformationResponseKws : List Str :=
  ["AWSTemplateFormatVersion".toList, "Resources".toList,
   "Type:".toList, "Properties:".toList]

/-- Shallow embedding of `utils.validators.validate_llm_response`.  The two
leading Python `assert` statements are modelled as the error component: an
`AssertionError` message instead of a returned verdict pair. -/
def validate_llm_response (response : Str) (expected_format : Str) :
    Except Str (Bool × Option Str) :=
  if response = [] then Except.error "Response cannot be empty".toList
  else if ¬ (expected_format = "terraform".toList ∨
      expected_format = "cloudformation".toList) then
    Except.error ("Invalid format: ".toList ++ expected_format)
  else Except.ok (
    if ¬ containsSub ticks response then
      (false, some "Response does not contain code blocks".toList)
    else if expected_format = "terraform".toList then
      if terraformResponseKws.any (fun k => containsSub k (lowerStr response)) then
        (true, none)
      else (false, some "Response does not appear to contain valid Terraform code".toList)
    else
      if cloudformationResponseKws.any (fun k => containsSub k response) then
        (true, none)
      else (false, some "Response does not appear to contain valid CloudFormation code".toList))

/-- C10. The response validator's preconditions are enforced by assertions:
an empty response or a format outside the two known values yields an
assertion error instead of a verdict, and under the preconditions the
assertions never fire and a verdict pair is always returned. -/
theorem validate_llm_response_preconditions (response expected_format : Str) :
    (response = [] ∨
       (expected_format ≠ "terraform".toList ∧
        expected_format ≠ "cloudformation".toList) →
      ∃ msg, validate_llm_response response expected_format = Except.error msg) ∧
    (response ≠ [] →
     (expected_format = "terraform".toList ∨ expected_format = "cloudformation".toList) →
      ∃ verdict, validate_llm_response response expected_format = Except.ok verdict) := by
  constructor
  · intro h
    unfold validate_llm_response
    rcases h with h | h
    · rw [if_pos h]
      exact ⟨_, rfl⟩
    · by_cases hr : response = []
      · rw [if_pos hr]
        exact ⟨_, rfl⟩
      · rw [if_neg hr, if_pos]
        · exact ⟨_, rfl⟩
        · intro hor
          rcases hor with h1 | h1
          · exact h.1 h1
          · exact h.2 h1
  · intro h1 h2
    unfold validate_llm_response
    rw [if_neg h1, if_neg]
    · exact ⟨_, rfl⟩
    · intro hn
      exact hn h2

/-- Witness for C10 at concrete inputs: an empty response, an unknown
format, and a well-formed call. -/
theorem validate_llm_response_preconditions_witness :
    (∃ msg, validate_llm_response [] "terraform".toList = Except.error msg) ∧
    (∃ msg, validate_llm_response "x".toList "yaml".toList = Except.error msg) ∧
    (∃ verdict, validate_llm_response "x".toList "terraform".toList = Except.ok verdict) :=
  ⟨(validate_llm_response_preconditions [] "terraform".toList).1 (Or.inl rfl),
   (validate_llm_response_preconditions "x".toList "yaml".toList).1
     (Or.inr ⟨by decide, by decide⟩),
   (validate_llm_response_preconditions "x".toList "terraform".toList).2
     (by decide) (Or.inl rfl)⟩

/-- Match the capture of the terraform resource-type pattern (the literal
word `resource`, whitespace, then a quoted word-or-hyphen run) at the
current position. -/
def matchTfResource (s : Str) : Option (Str × Str) :=
  if startsWithL "resource".toList s then
    match eatSpaces1 (s.drop 8) with
    | some r1 => eatQuotedWordCap r1
    | none => none
  else none

/-- Match the capture of the terraform data-source pattern at the current
position. -/
def matchTfData (s : Str) : Option (Str × Str) :=
  if startsWithL "data".toList s then
    match eatSpaces1 (s.drop 4) with
    | some r1 => eatQuotedWordCap r1
    | none => none
  else none

/-- Consume one optional quote character (double or single), the optional
quote of the CloudFormation type pattern. -/
def eatOptQuote (s : Str) : Str :=
  match s with
  | c :: rest => if c = quoteChar || c = '\x27' then rest else s
  | [] => s

/-- Match the capture of the CloudFormation type pattern (the literal
`Type:`, optional whitespace, an optional quote, then a name of the shape
`AWS::word::word`) at the current position.  The two word runs are maximal
since a colon is not a word character. -/
def matchCfType (s : Str) : Option (Str × Str) :=
  if startsWithL "Type:".toList s then
    let r1 := (s.drop 5).dropWhile isSpaceChar
    let r2 := eatOptQuote r1
    if startsWithL "AWS::".toList r2 then
      let w1 := (r2.drop 5).takeWhile isWordChar
      let r3 := (r2.drop 5).drop w1.length
      if w1 ≠ [] ∧ startsWithL "::".toList r3 then
        let w2 := (r3.drop 2).takeWhile isWordChar
        if w2 ≠ [] then
          some ("AWS::".toList ++ w1 ++ "::".toList ++ w2, (r3.drop 2).drop w2.length)
        else none
      else none
    else none
  else none

/-- Shallow embedding of `CodeFormatter.extract_resources_from_code`.
Python `list(set(resources))` is modelled by `List.dedup` (same members,
no duplicates, unspecified order). -/
def extract_resources_from_code (code : Str) (format_type : Str) : List Str :=
  if lowerStr format_type = "terraform".toList then
    List.dedup (findall matchTfResource code ++
      (findall matchTfData code).map (fun m => "data.".toList ++ m))
  else
    List.dedup (findall matchCfType code)

/-- The keyword alternation of `IaCGenerator.identify_resources`. -/
def identifyResourceKws : List Str :=
  ["EC2".toList, "S3".toList, "RDS".toList, "Lambda".toList, "VPC".toList,
   "ALB".toList, "ELB".toList, "DynamoDB".toList, "SNS".toList, "SQS".toList,
   "CloudFront".toList, "Route53".toList, "ECS".toList, "EKS".toList,
   "API Gateway".toList, "Kinesis".toList, "Redshift".toList, "ElastiCache".toList,
   "Neptune".toList, "Athena".toList, "Glue".toList, "Step Functions".toList,
   "EventBridge".toList, "Cognito".toList, "Secrets Manager".toList,
   "Systems Manager".toList, "CloudWatch".toList, "CloudTrail".toList,
   "WAF".toList, "Shield".toList, "GuardDuty".toList, "Inspector".toList,
   "Macie".toList, "Config".toList, "Organizations".toList, "Control Tower".toList,
   "Service Catalog".toList, "AppSync".toList, "Amplify".toList,
   "Elastic Beanstalk".toList, "Fargate".toList, "Batch".toList, "SageMaker".toList,
   "Comprehend".toList, "Rekognition".toList, "Polly".toList, "Transcribe".toList,
   "Translate".toList, "Lex".toList, "Personalize".toList, "Forecast".toList,
   "Textract".toList, "Kendra".toList, "QuickSight".toList,
   "Managed Blockchain".toList, "Quantum Ledger".toList, "Ground Station".toList,
   "RoboMaker".toList, "IoT Core".toList, "IoT Analytics".toList,
   "IoT Events".toList, "IoT Things Graph".toList, "IoT Device Defender".toList,
   "IoT Device Management".toList, "IoT 1-Click".toList, "IoT Greengrass".toList,
   "Timestream".toList, "DocumentDB".toList, "Keyspaces".toList, "QLDB".toList,
   "Managed Apache Cassandra".toList, "FSx".toList, "EFS".toList,
   "Storage Gateway".toList, "DataSync".toList, "Transfer Family".toList,
   "Backup".toList, "CloudEndure".toList, "Application Discovery".toList,
   "Migration Hub".toList, "Server Migration".toList, "Database Migration".toList,
   "Snow Family".toList, "Direct Connect".toList, "VPN".toList,
   "Transit Gateway".toList, "PrivateLink".toList, "Global Accelerator".toList,
   "CloudFront".toList, "Route 53".toList, "API Gateway".toList, "App Mesh".toList,
   "Cloud Map".toList, "X-Ray".toList, "CloudFormation".toList, "CDK".toList,
   "SAM".toList, "OpsWorks".toList, "Service Catalog".toList, "Control Tower".toList,
   "Organizations".toList, "Resource Access Manager".toList, "License Manager".toList,
   "Compute Optimizer".toList, "Trusted Advisor".toList,
   "Well-Architected Tool".toList, "Personal Health Dashboard".toList]

/-- The resource-extraction step of `IaCGenerator.identify_resources`: the
LLM call is an oracle, so the function takes the returned response content
and performs the case-insensitive keyword scan followed by
`list(set(...))`, modelled by `List.dedup`. -/
def identify_resources (responseContent : Str) : List Str :=
  List.dedup (findKeywords true identifyResourceKws responseContent)

/-- Counterexample to C8 as stated: on the response text `EC2 ec2` the
parser's detected-resource set keeps two distinct members that are equal
case-insensitively, because the keyword match is case-insensitive but the
deduplication is by exact string equality. -/
theorem detected_resources_case_duplicate :
    "EC2".toList ∈
      (parse_architecture_response "EC2 ec2".toList "terraform".toList).detected_resources ∧
    "ec2".toList ∈
      (parse_architecture_response "EC2 ec2".toList "terraform".toList).detected_resources ∧
    "EC2".toList ≠ "ec2".toList ∧
    lowerStr "EC2".toList = lowerStr "ec2".toList := by
  refine ⟨by decide, by decide, by decide, by decide⟩

/-- C8 (amended). All three detected-resource extractions deduplicate by
exact string equality: the returned list never contains two identical
members, though members differing only in letter case may coexist. -/
theorem detected_resources_nodup :
    (∀ response fmt : Str,
      (parse_architecture_response response fmt).detected_resources.Nodup) ∧
    (∀ code fmt : Str, (extract_resources_from_code code fmt).Nodup) ∧
    (∀ response : Str, (identify_resources response).Nodup) := by
  refine ⟨fun response fmt => ?_, fun code fmt => ?_, fun response => ?_⟩
  · unfold parse_architecture_response
    exact List.nodup_dedup _
  · unfold extract_resources_from_code
    by_cases h : lowerStr fmt = "terraform".toList
    · rw [if_pos h]; exact List.nodup_dedup _
    · rw [if_neg h]; exact List.nodup_dedup _
  · exact List.nodup_dedup _

/-- A PIL image, modelled by the attributes the preprocessing pipeline
reads and writes: pixel dimensions and colour mode (pixel contents are not
modelled; every step below preserves or transforms dimensions and mode
exactly as the source does). -/
structure PImage where
  width : Nat
  height : Nat
  mode : Str
deriving DecidableEq

/-- The configured maximum width or height of `ImageProcessor`. -/
def max_dimension : Nat := 2048

/-- Shallow embedding of `ImageProcessor._resize_image`.  The Python
expression `int(h * (max_dimension / w))` is modelled with exact rational
arithmetic as the floor `h * max_dimension / w`, and symmetrically for the
other branch. -/
def resize_image (img : PImage) : PImage :=
  if img.width ≤ max_dimension ∧ img.height ≤ max_dimension then img
  else if img.width > img.height then
    { img with width := max_dimension, height := img.height * max_dimension / img.width }
  else
    { img with width := img.width * max_dimension / img.height, height := max_dimension }

/-- Shallow embedding of `ImageProcessor._enhance_image`: contrast,
sharpness and auto-contrast adjust pixel values only, leaving dimensions
and mode unchanged. -/
def enhance_image (img : PImage) : PImage := img

/-- Shallow embedding of `ImageProcessor._remove_transparency`: an RGBA
image is composited onto a white RGB background of the same size; any
other mode is returned untouched. -/
def remove_transparency (img : PImage) : PImage :=
  if img.mode = "RGBA".toList then { img with mode := "RGB".toList } else img

/-- Shallow embedding of `ImageProcessor.preprocess_image` on a decoded
image: convert to RGB when the mode is neither RGB nor RGBA, then resize,
enhance and flatten transparency.  Saving the processed file is a side
effect outside the image value. -/
def preprocess_image (img : PImage) : PImage :=
  let img1 := if img.mode ≠ "RGB".toList ∧ img.mode ≠ "RGBA".toList then
      { img with mode := "RGB".toList }
    else img
  remove_transparency (enhance_image (resize_image img1))

/-- Division bound used for the resize arithmetic: the floor of `a / b`
times `b` is within one `b` of `a`. -/
theorem div_mul_lt_add (a b : Nat) (hb : 0 < b) : a < a / b * b + b := by
  have h1 := Nat.div_add_mod a b
  have h2 := Nat.mod_lt a hb
  have h3 : a / b * b + a % b = a := by
    rw [Nat.mul_comm] at h1
    exact h1
  omega


/-- Dimension behaviour of `_resize_image`: the longest side becomes at
most 2048, an image already within the bound is untouched, and the new
dimensions preserve the aspect ratio up to integer rounding. -/
theorem resize_image_dims (p : PImage) (hpw : 0 < p.width) (hph : 0 < p.height) :
    max (resize_image p).width (resize_image p).height ≤ 2048 ∧
    (p.width ≤ 2048 → p.height ≤ 2048 →
      (resize_image p).width = p.width ∧ (resize_image p).height = p.height) ∧
    (resize_image p).height * p.width <
      p.height * (resize_image p).width + max p.width p.height ∧
    p.height * (resize_image p).width <
      (resize_image p).height * p.width + max p.width p.height := by
  have hmaxpos : 0 < max p.width p.height := lt_of_lt_of_le hpw (le_max_left _ _)
  unfold resize_image max_dimension
  split
  · rename_i hin
    refine ⟨?_, fun _ _ => ⟨rfl, rfl⟩, ?_, ?_⟩
    · omega
    · omega
    · omega
  · rename_i hout
    split
    · rename_i hgt
      dsimp only
      have hdivle : p.height * 2048 / p.width ≤ 2048 := by
        calc p.height * 2048 / p.width ≤ p.width * 2048 / p.width :=
              Nat.div_le_div_right (Nat.mul_le_mul_right _ (le_of_lt hgt))
          _ = 2048 := Nat.mul_div_cancel_left _ hpw
      have hle : p.height * 2048 / p.width * p.width ≤ p.height * 2048 :=
        Nat.div_mul_le_self _ _
      have hlt : p.height * 2048 < p.height * 2048 / p.width * p.width + p.width :=
        div_mul_lt_add _ _ hpw
      have hwmax : p.width ≤ max p.width p.height := le_max_left _ _
      refine ⟨?_, fun h1 h2 => absurd ⟨h1, h2⟩ hout, ?_, ?_⟩
      · omega
      · linarith
      · linarith
    · rename_i hle'
      dsimp only
      have hwh : p.width ≤ p.height := Nat.le_of_not_lt hle'
      have hdivle : p.width * 2048 / p.height ≤ 2048 := by
        calc p.width * 2048 / p.height ≤ p.height * 2048 / p.height :=
              Nat.div_le_div_right (Nat.mul_le_mul_right _ hwh)
          _ = 2048 := Nat.mul_div_cancel_left _ hph
      have hle : p.width * 2048 / p.height * p.height ≤ p.width * 2048 :=
        Nat.div_mul_le_self _ _
      have hlt : p.width * 2048 < p.width * 2048 / p.height * p.height + p.height :=
        div_mul_lt_add _ _ hph
      have hhmax : p.height ≤ max p.width p.height := le_max_right _ _
      refine ⟨?_, fun h1 h2 => absurd ⟨h1, h2⟩ hout, ?_, ?_⟩
      · omega
      · linarith
      · linarith

/-- C7. Preprocessing caps the longest side at 2048 while preserving the
aspect ratio up to integer rounding, leaves images already within the
bound at their original size, and always yields an RGB image, so the
processed copy carries no alpha channel. -/
theorem preprocess_image_spec (img : PImage)
    (hw : 0 < img.width) (hh : 0 < img.height) :
    max (preprocess_image img).width (preprocess_image img).height ≤ 2048 ∧
    (img.width ≤ 2048 → img.height ≤ 2048 →
      (preprocess_image img).width = img.width ∧
      (preprocess_image img).height = img.height) ∧
    (preprocess_image img).mode = "RGB".toList ∧
    (preprocess_image img).height * img.width <
      img.height * (preprocess_image img).width + max img.width img.height ∧
    img.height * (preprocess_image img).width <
      (preprocess_image img).height * img.width + max img.width img.height := by
  have hpre : preprocess_image img =
      remove_transparency (enhance_image (resize_image
        (if img.mode ≠ "RGB".toList ∧ img.mode ≠ "RGBA".toList then
          { img with mode := "RGB".toList } else img))) := rfl
  set img1 := (if img.mode ≠ "RGB".toList ∧ img.mode ≠ "RGBA".toList then
      { img with mode := "RGB".toList } else img) with himg1
  have h1w : img1.width = img.width := by rw [himg1]; split <;> rfl
  have h1h : img1.height = img.height := by rw [himg1]; split <;> rfl
  have h1m : img1.mode = "RGB".toList ∨ img1.mode = "RGBA".toList := by
    rw [himg1]; split
    · left; rfl
    · rename_i hcond
      by_cases hr : img.mode = "RGB".toList
      · left; exact hr
      · right
        by_cases ha : img.mode = "RGBA".toList
        · exact ha
        · exact absurd ⟨hr, ha⟩ hcond
  have hrdimW : ∀ q : PImage, (remove_transparency (enhance_image q)).width = q.width := by
    intro q; unfold remove_transparency enhance_image; split <;> rfl
  have hrdimH : ∀ q : PImage, (remove_transparency (enhance_image q)).height = q.height := by
    intro q; unfold remove_transparency enhance_image; split <;> rfl
  have hW : (preprocess_image img).width = (resize_image img1).width := by
    rw [hpre]; exact hrdimW _
  have hH : (preprocess_image img).height = (resize_image img1).height := by
    rw [hpre]; exact hrdimH _
  have hrm : (resize_image img1).mode = img1.mode := by
    unfold resize_image; split
    · rfl
    · split <;> rfl
  have hmode : (preprocess_image img).mode = "RGB".toList := by
    rw [hpre]
    unfold remove_transparency enhance_image
    split
    · rfl
    · rename_i hne
      rw [hrm]
      rcases h1m with h | h
      · exact h
      · exact absurd (hrm.trans h) hne
  have hres := resize_image_dims img1 (h1w ▸ hw) (h1h ▸ hh)
  rw [hW, hH, hmode, ← h1w, ← h1h]
  exact ⟨hres.1, hres.2.1, rfl, hres.2.2.1, hres.2.2.2⟩

/-- Witness for C7 at a concrete oversized RGBA image: 4000 by 1000 pixels
resizes to 2048 by 512 and loses its alpha channel. -/
theorem preprocess_image_spec_witness :
    (0 < (4000 : Nat) ∧ 0 < (1000 : Nat)) ∧
    max (preprocess_image ⟨4000, 1000, "RGBA".toList⟩).width
      (preprocess_image ⟨4000, 1000, "RGBA".toList⟩).height ≤ 2048 ∧
    (preprocess_image ⟨4000, 1000, "RGBA".toList⟩).mode = "RGB".toList ∧
    preprocess_image ⟨4000, 1000, "RGBA".toList⟩ = ⟨2048, 512, "RGB".toList⟩ :=
  ⟨⟨by decide, by decide⟩,
   (preprocess_image_spec ⟨4000, 1000, "RGBA".toList⟩ (by decide) (by decide)).1,
   (preprocess_image_spec ⟨4000, 1000, "RGBA".toList⟩ (by decide) (by decide)).2.2.1,
   by decide⟩

/-- Decoded image metadata extracted by the validator (PIL attributes). -/
structure ImgMeta where
  width : Nat
  height : Nat
deriving DecidableEq

/-- An uploaded file body: its byte length, and the result of attempting to
decode it as an image (`none` models a decode failure of corrupt data). -/
structure FileContent where
  sizeBytes : Nat
  decoded : Option ImgMeta
deriving DecidableEq

/-- Upload configuration read from the environment: the megabyte ceiling
and the comma-split extension allow-list. -/
structure EnvConfig where
  maxImageSizeMB : Nat
  allowedImageTypes : List Str
deriving DecidableEq

/-- The final path component, Python `Path(filename).name`. -/
def lastComponent (filename : Str) : Str :=
  ((filename.reverse.takeWhile (fun c => c ≠ '/')).reverse)

/-- Split a name at its last dot, when one exists. -/
def splitLastDot (name : Str) : Option (Str × Str) :=
  let revAfter := name.reverse.takeWhile (fun c => c ≠ '.')
  if revAfter.length = name.length then none
  else some ((name.take (name.length - revAfter.length - 1)), revAfter.reverse)

/-- Python `Path(filename).suffix`: the extension of the last component
including its dot, empty for dotless or hidden names. -/
def pySuffix (filename : Str) : Str :=
  let base := lastComponent filename
  match splitLastDot base with
  | some (before, after) => if before = [] then [] else '.' :: after
  | none => []

/-- The validator's extension computation:
`Path(filename).suffix.lower().strip(".")`. -/
def file_ext (filename : Str) : Str :=
  ((lowerStr (pySuffix filename)).dropWhile (fun c => c = '.')).reverse.dropWhile
    (fun c => c = '.') |>.reverse

/-- Shallow embedding of `utils.validators.validate_image_file`.  The
Python float comparison `len(content)/(1024*1024) > max_size_mb` is exact
on these magnitudes and is modelled by the equivalent integer comparison.
The formatted sizes inside the first message are elided; every message is
a fixed non-empty descriptive reason. -/
def validate_image_file (cfg : EnvConfig) (content : FileContent) (filename : Str) :
    Bool × Option Str × Option ImgMeta :=
  if content.sizeBytes > cfg.maxImageSizeMB * 1048576 then
    (false, some "File size exceeds maximum".toList, none)
  else if ¬ (file_ext filename ∈ cfg.allowedImageTypes) then
    (false, some "File type not allowed".toList, none)
  else
    match content.decoded with
    | none => (false, some "Invalid image file or corrupted content".toList, none)
    | some meta =>
      if meta.width < 100 ∨ meta.height < 100 then
        (false, some "Image too small. Minimum dimension: 100px".toList, none)
      else if meta.width > 4096 ∨ meta.height > 4096 then
        (false, some "Image too large. Maximum dimension: 4096px".toList, none)
      else (true, none, some meta)

/-- Python `os.path.splitext` on a bare name. -/
def pySplitExt (name : Str) : Str × Str :=
  match splitLastDot name with
  | some (before, after) => if before = [] then (name, []) else (before, '.' :: after)
  | none => (name, [])

/-- Shallow embedding of `utils.validators.sanitize_filename`. -/
def sanitize_filename (filename : Str) : Str :=
  let name := lastComponent filename
  let invalid : Str := "<>:\x22|?*".toList
  let cleaned := name.map (fun c => if c ∈ invalid then underscoreChar else c)
  if cleaned.length > 255 then
    let pe := pySplitExt cleaned
    pe.1.take (255 - pe.2.length) ++ pe.2
  else cleaned

/-- An HTTP error raised by a route handler. -/
structure HttpError where
  status : Nat
  detail : Str
deriving DecidableEq

/-- The successful payload of the upload route. -/
structure UploadResponse where
  image_id : Str
  filename : Str
  metadata : ImgMeta
deriving DecidableEq

/-- Shallow embedding of the `upload_image` route handler.  Storage is the
list of file names in the uploads directory; the generated UUID is a
parameter (an external source of randomness).  Validation precedes the
directory creation and the write, so a rejected upload leaves storage
untouched; the background preprocessing task runs after the response and
is outside this function. -/
def upload_image (cfg : EnvConfig) (stored : List Str) (imageId : Str)
    (filename : Str) (content : FileContent) :
    Except HttpError UploadResponse × List Str :=
  match validate_image_file cfg content filename with
  | (false, err, _) => (Except.error ⟨400, err.getD []⟩, stored)
  | (true, _, meta) =>
    let safe := sanitize_filename filename
    (Except.ok ⟨imageId, safe, meta.getD ⟨0, 0⟩⟩,
      stored ++ [imageId ++ [underscoreChar] ++ safe])

/-- C4. An upload violating any single bound (size over the ceiling,
extension outside the allow-list, or a decoded dimension outside the
interval from 100 to 4096) is rejected with a client fault carrying a
non-empty descriptive reason, and the uploads directory is unchanged. -/
theorem upload_rejected_no_write (cfg : EnvConfig) (stored : List Str)
    (imageId filename : Str) (content : FileContent)
    (hviol : content.sizeBytes > cfg.maxImageSizeMB * 1048576 ∨
      file_ext filename ∉ cfg.allowedImageTypes ∨
      (∃ meta, content.decoded = some meta ∧
        (meta.width < 100 ∨ meta.height < 100 ∨ meta.width > 4096 ∨ meta.height > 4096))) :
    ∃ e : HttpError,
      upload_image cfg stored imageId filename content = (Except.error e, stored) ∧
      e.status = 400 ∧ e.detail ≠ [] := by
  unfold upload_image validate_image_file
  by_cases hsize : content.sizeBytes > cfg.maxImageSizeMB * 1048576
  · rw [if_pos hsize]
    exact ⟨_, rfl, rfl, by decide⟩
  · rw [if_neg hsize]
    by_cases hext : file_ext filename ∈ cfg.allowedImageTypes
    · rw [if_neg (by simpa using hext)]
      rcases hviol with h | h | h
      · exact absurd h hsize
      · exact absurd hext h
      · obtain ⟨meta, hdec, hdims⟩ := h
        rw [hdec]
        dsimp only
        by_cases hsmall : meta.width < 100 ∨ meta.height < 100
        · rw [if_pos hsmall]
          exact ⟨_, rfl, rfl, by decide⟩
        · rw [if_neg hsmall]
          have hlarge : meta.width > 4096 ∨ meta.height > 4096 := by
            rcases hdims with h1 | h1 | h1 | h1
            · exact absurd (Or.inl h1) hsmall
            · exact absurd (Or.inr h1) hsmall
            · exact Or.inl h1
            · exact Or.inr h1
          rw [if_pos hlarge]
          exact ⟨_, rfl, rfl, by decide⟩
    · rw [if_pos (by simpa using hext)]
      exact ⟨_, rfl, rfl, by decide⟩

/-- Witness for C4: an 11 megabyte file against a 10 megabyte ceiling is
rejected and storage stays empty. -/
theorem upload_rejected_no_write_witness :
    (11534336 : Nat) > 10 * 1048576 ∧
    ∃ e : HttpError,
      upload_image ⟨10, ["png".toList]⟩ [] "id1".toList "a.png".toList
        ⟨11534336, some ⟨500, 400⟩⟩ = (Except.error e, []) ∧
      e.status = 400 ∧ e.detail ≠ [] :=
  ⟨by decide,
   upload_rejected_no_write ⟨10, ["png".toList]⟩ [] "id1".toList "a.png".toList
     ⟨11534336, some ⟨500, 400⟩⟩ (Or.inl (by decide))⟩

/-- Python `str.replace`: substitute every non-overlapping occurrence. -/
def replaceSubAux (needle repl : Str) : Nat → Str → Str
  | 0, s => s
  | fuel + 1, s =>
    match splitFirstSub needle s with
    | none => s
    | some (before, rest) => before ++ repl ++ replaceSubAux needle repl fuel rest

/-- Python `str.replace(needle, repl)` for a non-empty needle. -/
def replaceSub (needle repl s : Str) : Str := replaceSubAux needle repl (s.length + 1) s

/-- Python `str.split("\n")`: split into lines, keeping empty pieces. -/
def splitLines (s : Str) : List Str :=
  s.foldr
    (fun c acc =>
      match acc with
      | [] => [[c]]
      | a :: as_ => if c = nlChar then [] :: a :: as_ else (c :: a) :: as_)
    [[]]

/-- Python `"\n".join(lines)`. -/
def joinLines (lines : List Str) : Str := List.intercalate [nlChar] lines

/-- Whether the text ends with the given character, Python `str.endswith`. -/
def endsWithChar (c : Char) (s : Str) : Bool :=
  match s.getLast? with
  | some d => d == c
  | none => false

/-- Shallow embedding of `IaCGenerator._format_terraform_code`: re-indent
line by line with two spaces per brace depth. -/
def ftcAux : List Str → Nat → List Str
  | [], _ => []
  | line :: rest, ind =>
    let stripped := pyStrip line
    let ind1 := if startsWithL [closeBrace] stripped then ind - 1 else ind
    let out := if stripped = [] then ([] : Str)
      else List.replicate (2 * ind1) ' ' ++ stripped
    let ind2 := if endsWithChar openBrace stripped then ind1 + 1 else ind1
    out :: ftcAux rest ind2

/-- Shallow embedding of `IaCGenerator._format_terraform_code`. -/
def format_terraform_code (code : Str) : Str := joinLines (ftcAux (splitLines code) 0)

/-- Shallow embedding of `IaCGenerator._format_cloudformation_code`:
normalise line endings and strip. -/
def format_cloudformation_code (code : Str) : Str :=
  pyStrip (replaceSub "\r\n".toList "\n".toList code)

/-- Shallow embedding of `IaCGenerator._post_process_code`. -/
def post_process_code (code : Str) (output_format : Str) : Str :=
  if code = [] then []
  else
    let c1 := pyStrip code
    let c2 :=
      if startsWithL ticks c1 then
        let lines := splitLines c1
        if lines.length > 2 then joinLines (lines.drop 1).dropLast else c1
      else c1
    if output_format = "terraform".toList then format_terraform_code c2
    else if output_format = "cloudformation".toList then format_cloudformation_code c2
    else c2

/-- The provider client and its network behaviour, as seen by one
generation request: the availability probe, the image-capability flag, the
provider name, and an oracle giving the content of the n-th `generate`
call's response. -/
structure LLMEnv where
  available : Bool
  supportsImages : Bool
  providerName : Str
  responses : Nat → Str

/-- A Python exception escaping the orchestration layer: an
`AssertionError` from the entry assertions, or the `ValueError` re-raised
by the catch-all handler. -/
inductive GenError where
  | assertError (msg : Str)
  | valueError (msg : Str)
deriving DecidableEq

/-- The result dictionary returned by `IaCGenerator.generate_from_image`. -/
structure FinalResult where
  code : Str
  explanation : Option Str
  detected_resources : List Str
  format : Str
  raw_response : Str
deriving DecidableEq

/-- Trace of one `generate_from_image` run: its outcome together with how
many availability probes, LLM generate calls and heuristic validation
calls were made. -/
structure GenTrace where
  outcome : Except GenError FinalResult
  probeCalls : Nat
  generateCalls : Nat
  validationCalls : Nat

/-- Shallow embedding of `IaCGenerator._refine_output`: one further
generate call (its prompt, built by `create_refinement_prompt` from the
initial code and the validator feedback, only feeds the LLM oracle), the
refined response parsed afresh, and the initial detected resources copied
over the refined parse. -/
def refine_output (initial : ParsedResponse) (refinedResponse : Str)
    (output_format : Str) : ParsedResponse :=
  let refined := parse_architecture_response refinedResponse output_format
  { refined with detected_resources := initial.detected_resources }

/-- The tail of `generate_from_image` after validation: null the
explanation unless requested and post-process the code. -/
def finalize_result (p : ParsedResponse) (include_explanation : Bool) : FinalResult :=
  { code := post_process_code p.code p.format
    explanation := if include_explanation then some p.explanation else none
    detected_resources := p.detected_resources
    format := p.format
    raw_response := p.raw_response }

/-- The wrapper applied by the catch-all handler of `generate_from_image`
before re-raising as a `ValueError`. -/
def wrapGenFailure (msg : Str) : Str :=
  "Failed to generate Infrastructure as Code: ".toList ++ msg

/-- Shallow embedding of `IaCGenerator.generate_from_image`.  The entry
assertion on the image path is outside this model (the route only calls
with a file it found); the format assertion is the first branch.  Inside
the handled block: one availability probe, one capability check, one
generate call parsed by `_parse_architecture_response`, one heuristic
validation of the raw response, and on a failed verdict exactly one
refinement generate call, whose result is returned without re-validation. -/
def generate_from_image (env : LLMEnv) (output_format : Str)
    (include_explanation : Bool) : GenTrace :=
  if ¬ (output_format = "terraform".toList ∨ output_format = "cloudformation".toList) then
    { outcome := Except.error (GenError.assertError
        ("Invalid format: ".toList ++ output_format))
      probeCalls := 0, generateCalls := 0, validationCalls := 0 }
  else if env.available = false then
    { outcome := Except.error (GenError.valueError
        (wrapGenFailure "LLM service is not available".toList))
      probeCalls := 1, generateCalls := 0, validationCalls := 0 }
  else if env.supportsImages = false then
    { outcome := Except.error (GenError.valueError
        (wrapGenFailure (env.providerName ++ " does not support image analysis".toList)))
      probeCalls := 1, generateCalls := 0, validationCalls := 0 }
  else
    let initial := parse_architecture_response (env.responses 0) output_format
    match validate_llm_response initial.raw_response output_format with
    | Except.error msg =>
      { outcome := Except.error (GenError.valueError (wrapGenFailure msg))
        probeCalls := 1, generateCalls := 1, validationCalls := 1 }
    | Except.ok (true, _) =>
      { outcome := Except.ok (finalize_result initial include_explanation)
        probeCalls := 1, generateCalls := 1, validationCalls := 1 }
    | Except.ok (false, _) =>
      { outcome := Except.ok (finalize_result
          (refine_output initial (env.responses 1) output_format) include_explanation)
        probeCalls := 1, generateCalls := 2, validationCalls := 1 }

/-- The request body of the generate route. -/
structure GenerateCodeRequest where
  image_id : Str
  output_format : Str
  include_explanation : Bool

/-- The response body of the generate route. -/
structure GenerateCodeResponse where
  code : Str
  explanation : Option Str
  detected_resources : List Str
  format : Str
deriving DecidableEq

/-- The detail of the invalid-format client fault of the generate route. -/
def invalidFormatDetail : Str :=
  "Invalid output format. Must be \x27terraform\x27 or \x27cloudformation\x27".toList

/-- Shallow embedding of the `generate_code` route handler.  Storage is
the list of file names in the uploads directory (the glob by identifier
prefix is a filter); the returned pair of numbers counts availability
probes and LLM generate calls performed by the request. -/
def generate_code (files : List Str) (env : LLMEnv) (req : GenerateCodeRequest) :
    Except HttpError GenerateCodeResponse × Nat × Nat :=
  let image_files := files.filter
    (fun f => startsWithL (req.image_id ++ [underscoreChar]) f)
  if image_files = [] then
    (Except.error ⟨404, "Image with ID ".toList ++ req.image_id ++ " not found".toList⟩,
      0, 0)
  else if ¬ (req.output_format = "terraform".toList ∨
      req.output_format = "cloudformation".toList) then
    (Except.error ⟨400, invalidFormatDetail⟩, 0, 0)
  else
    let tr := generate_from_image env req.output_format req.include_explanation
    match tr.outcome with
    | Except.ok r =>
      (Except.ok ⟨r.code, r.explanation, r.detected_resources, req.output_format⟩,
        tr.probeCalls, tr.generateCalls)
    | Except.error (GenError.valueError m) =>
      (Except.error ⟨400, m⟩, tr.probeCalls, tr.generateCalls)
    | Except.error (GenError.assertError _) =>
      (Except.error ⟨500, "Failed to generate code. Please try again.".toList⟩,
        tr.probeCalls, tr.generateCalls)

/-- C2. When the initial response fails heuristic validation, the
orchestrator performs exactly one further generate call, exactly one
validation call in total, and returns the refined result (no second
validation pass, no further retry). -/
theorem single_refinement_on_validation_failure (env : LLMEnv) (fmt : Str)
    (incl : Bool) (msg : Option Str)
    (hfmt : fmt = "terraform".toList ∨ fmt = "cloudformation".toList)
    (hav : env.available = true) (him : env.supportsImages = true)
    (hval : validate_llm_response (env.responses 0) fmt = Except.ok (false, msg)) :
    (generate_from_image env fmt incl).generateCalls = 2 ∧
    (generate_from_image env fmt incl).validationCalls = 1 ∧
    (generate_from_image env fmt incl).outcome = Except.ok (finalize_result
      (refine_output (parse_architecture_response (env.responses 0) fmt)
        (env.responses 1) fmt) incl) := by
  have hraw : (parse_architecture_response (env.responses 0) fmt).raw_response
      = env.responses 0 := rfl
  unfold generate_from_image
  rw [if_neg (not_not_intro hfmt), if_neg (by simp [hav]), if_neg (by simp [him])]
  dsimp only
  rw [hraw, hval]
  exact ⟨rfl, rfl, rfl⟩

/-- Witness environment for the refinement theorems: first response has no
code fence (so validation fails), the second is the refined response. -/
def envW : LLMEnv :=
  { available := true
    supportsImages := true
    providerName := "ollama".toList
    responses := fun n => if n = 0 then "resource only".toList else "fixed".toList }

/-- Witness for C2 on a concrete environment whose first response fails
validation. -/
theorem single_refinement_on_validation_failure_witness :
    (generate_from_image envW "terraform".toList true).generateCalls = 2 ∧
    (generate_from_image envW "terraform".toList true).validationCalls = 1 ∧
    (generate_from_image envW "terraform".toList true).outcome = Except.ok (finalize_result
      (refine_output (parse_architecture_response (envW.responses 0) "terraform".toList)
        (envW.responses 1) "terraform".toList) true) :=
  single_refinement_on_validation_failure envW "terraform".toList true
    (some "Response does not contain code blocks".toList)
    (Or.inl rfl) rfl rfl rfl

/-- C9. A run that goes through refinement returns the initial parse's
detected resources, while its code and explanation come from the refined
response (the code additionally post-processed). -/
theorem refinement_keeps_initial_resources (env : LLMEnv) (fmt : Str)
    (incl : Bool) (msg : Option Str)
    (hfmt : fmt = "terraform".toList ∨ fmt = "cloudformation".toList)
    (hav : env.available = true) (him : env.supportsImages = true)
    (hval : validate_llm_response (env.responses 0) fmt = Except.ok (false, msg)) :
    ∃ r, (generate_from_image env fmt incl).outcome = Except.ok r ∧
      r.detected_resources
        = (parse_architecture_response (env.responses 0) fmt).detected_resources ∧
      r.code = post_process_code (parse_architecture_response (env.responses 1) fmt).code fmt ∧
      (incl = true →
        r.explanation = some (parse_architecture_response (env.responses 1) fmt).explanation) := by
  have hraw : (parse_architecture_response (env.responses 0) fmt).raw_response
      = env.responses 0 := rfl
  unfold generate_from_image
  rw [if_neg (not_not_intro hfmt), if_neg (by simp [hav]), if_neg (by simp [him])]
  dsimp only
  rw [hraw, hval]
  refine ⟨_, rfl, rfl, rfl, fun hincl => ?_⟩
  rw [hincl]
  rfl

/-- Witness for C9 on the same concrete environment. -/
theorem refinement_keeps_initial_resources_witness :
    ∃ r, (generate_from_image envW "terraform".toList true).outcome = Except.ok r ∧
      r.detected_resources = (parse_architecture_response (envW.responses 0)
        "terraform".toList).detected_resources ∧
      r.code = post_process_code (parse_architecture_response (envW.responses 1)
        "terraform".toList).code "terraform".toList ∧
      (true = true → r.explanation = some (parse_architecture_response (envW.responses 1)
        "terraform".toList).explanation) :=
  refinement_keeps_initial_resources envW "terraform".toList true
    (some "Response does not contain code blocks".toList)
    (Or.inl rfl) rfl rfl rfl

/-- Counterexample to C3 as stated: a generation request with an unknown
format whose image identifier resolves to nothing fails with the not-found
client fault (status 404), not the invalid-argument condition. -/
theorem unknown_image_invalid_format_is_not_found :
    generate_code [] envW ⟨"abc".toList, "yaml".toList, true⟩ =
      (Except.error ⟨404, "Image with ID abc not found".toList⟩, 0, 0) ∧
    "Image with ID abc not found".toList ≠ invalidFormatDetail ∧
    (404 : Nat) ≠ 400 := by
  refine ⟨rfl, by decide, by decide⟩

/-- C3 (amended). A generation request with a format outside the two known
values fails before any provider interaction (zero availability probes and
zero generate calls) with a client fault: the invalid-argument condition
(status 400 with the invalid-format detail) whenever the image identifier
resolves, and the not-found fault (status 404) otherwise. -/
theorem invalid_format_rejected_before_provider (files : List Str) (env : LLMEnv)
    (req : GenerateCodeRequest)
    (hfmt : ¬ (req.output_format = "terraform".toList ∨
      req.output_format = "cloudformation".toList)) :
    (generate_code files env req).2 = (0, 0) ∧
    ∃ e, (generate_code files env req).1 = Except.error e ∧
      (e.status = 400 ∨ e.status = 404) ∧
      (files.filter (fun f => startsWithL (req.image_id ++ [underscoreChar]) f) ≠ [] →
        e = ⟨400, invalidFormatDetail⟩) := by
  unfold generate_code
  by_cases hemp : files.filter
      (fun f => startsWithL (req.image_id ++ [underscoreChar]) f) = []
  · rw [if_pos hemp]
    exact ⟨rfl, _, rfl, Or.inr rfl, fun hne => absurd hemp hne⟩
  · rw [if_neg hemp, if_pos hfmt]
    exact ⟨rfl, _, rfl, Or.inl rfl, fun _ => rfl⟩

/-- Witness for C3 with a resolving image identifier and the unknown
format `yaml`. -/
theorem invalid_format_rejected_before_provider_witness :
    (generate_code ["abc_x.png".toList] envW ⟨"abc".toList, "yaml".toList, true⟩).2
      = (0, 0) ∧
    ∃ e, (generate_code ["abc_x.png".toList] envW
        ⟨"abc".toList, "yaml".toList, true⟩).1 = Except.error e ∧
      (e.status = 400 ∨ e.status = 404) ∧
      (["abc_x.png".toList].filter
          (fun f => startsWithL ("abc".toList ++ [underscoreChar]) f) ≠ [] →
        e = ⟨400, invalidFormatDetail⟩) :=
  invalid_format_rejected_before_provider ["abc_x.png".toList] envW
    ⟨"abc".toList, "yaml".toList, true⟩ (by decide)
